import Mathlib

set_option autoImplicit false

/-!
Shallow embedding of the server core of the `rust-socketio` repository:
the Socket.IO payload/packet encoder (`socketio/src/socket.rs`), the
Engine.IO attachment pairing loop, the HTTP request classifier and the
polling acceptor (`engineio/src/asynchronous/server/accept.rs`), and the
session registry operations (`engineio/src/asynchronous/server/server.rs`).

Machine integers are modelled as `Nat` with explicit `% 2 ^ w` where the
source casts; bytes are `Nat`s; fallible code returns `Except`/`Option`.
-/

/-! ## JSON validity (model of `serde_json::from_str::<serde_json::Value>(s).is_ok()`)

`Socket::encode_payloads` inlines a `Payload::String` verbatim exactly when
`serde_json` parses it as a JSON document.  We model serde_json's strict
RFC 8259 grammar (a single value, surrounded only by JSON whitespace).
serde_json's recursion depth limit of 128 and its rejection of lone UTF-16
surrogates inside `\u` escapes are not modelled; no claim depends on which
strings are inlined versus quoted. -/

def lbrace : Char := Char.ofNat 123

def rbrace : Char := Char.ofNat 125

def jsonWs (c : Char) : Bool := c = ' ' || c = '\t' || c = '\n' || c = '\r'

def skipWs : List Char → List Char
  | [] => []
  | c :: rest => if jsonWs c then skipWs rest else c :: rest

def hexDigit (c : Char) : Bool :=
  c.isDigit || ('a' ≤ c && c ≤ 'f') || ('A' ≤ c && c ≤ 'F')

/-- Consume the remainder of a JSON string literal (the opening quote has
already been consumed); return the input after the closing quote. -/
def jsonStringRest : List Char → Option (List Char)
  | [] => none
  | c :: rest =>
    if c = '"' then some rest
    else if c = '\\' then
      match rest with
      | [] => none
      | e :: rest2 =>
        if e = '"' || e = '\\' || e = '/' || e = 'b' || e = 'f' || e = 'n' || e = 'r' || e = 't' then
          jsonStringRest rest2
        else if e = 'u' then
          match rest2 with
          | h1 :: h2 :: h3 :: h4 :: rest3 =>
            if hexDigit h1 && hexDigit h2 && hexDigit h3 && hexDigit h4 then
              jsonStringRest rest3
            else none
          | _ => none
        else none
    else if c.toNat < 32 then none
    else jsonStringRest rest
termination_by l => l.length
decreasing_by all_goals simp_arith [List.length]

/-- Exponent part of a JSON number (optional). -/
def jsonExpRest (l : List Char) : Option (List Char) :=
  match l with
  | [] => some []
  | c :: r =>
    if c = 'e' || c = 'E' then
      let r2 := match r with
        | s :: r3 => if s = '+' || s = '-' then r3 else r
        | [] => r
      match List.span Char.isDigit r2 with
      | ([], _) => none
      | (_ :: _, rest) => some rest
    else some l

/-- Fraction-then-exponent part of a JSON number (both optional). -/
def jsonFracRest (l : List Char) : Option (List Char) :=
  match l with
  | [] => some []
  | c :: r =>
    if c = '.' then
      match List.span Char.isDigit r with
      | ([], _) => none
      | (_ :: _, rest) => jsonExpRest rest
    else jsonExpRest l

/-- Consume one JSON number. -/
def jsonNumberRest (l : List Char) : Option (List Char) :=
  let l1 := match l with
    | c :: r => if c = '-' then r else l
    | [] => l
  match l1 with
  | [] => none
  | c :: r =>
    if c = '0' then jsonFracRest r
    else if c.isDigit then jsonFracRest (List.span Char.isDigit r).2
    else none

mutual

/-- Consume one JSON value (fuel-indexed; each nesting level consumes fuel). -/
def jsonValue : Nat → List Char → Option (List Char)
  | 0, _ => none
  | Nat.succ fuel, l =>
    match skipWs l with
    | [] => none
    | c :: r =>
      if c = '"' then jsonStringRest r
      else if c = lbrace then jsonObjectRest fuel (skipWs r)
      else if c = '[' then jsonArrayRest fuel (skipWs r)
      else if c = 'n' then
        match r with
        | 'u' :: 'l' :: 'l' :: r2 => some r2
        | _ => none
      else if c = 't' then
        match r with
        | 'r' :: 'u' :: 'e' :: r2 => some r2
        | _ => none
      else if c = 'f' then
        match r with
        | 'a' :: 'l' :: 's' :: 'e' :: r2 => some r2
        | _ => none
      else jsonNumberRest (c :: r)

/-- After `[` (whitespace skipped): empty array or a non-empty item list. -/
def jsonArrayRest : Nat → List Char → Option (List Char)
  | 0, _ => none
  | Nat.succ fuel, l =>
    match l with
    | [] => none
    | c :: r => if c = ']' then some r else jsonArrayItems fuel (c :: r)

/-- One-or-more array items separated by commas, ended by `]`. -/
def jsonArrayItems : Nat → List Char → Option (List Char)
  | 0, _ => none
  | Nat.succ fuel, l =>
    match jsonValue fuel l with
    | none => none
    | some rest =>
      match skipWs rest with
      | [] => none
      | c :: r =>
        if c = ',' then jsonArrayItems fuel r
        else if c = ']' then some r
        else none

/-- After the opening brace (whitespace skipped): empty object or members. -/
def jsonObjectRest : Nat → List Char → Option (List Char)
  | 0, _ => none
  | Nat.succ fuel, l =>
    match l with
    | [] => none
    | c :: r => if c = rbrace then some r else jsonObjectMembers fuel (c :: r)

/-- One-or-more `"key": value` members separated by commas. -/
def jsonObjectMembers : Nat → List Char → Option (List Char)
  | 0, _ => none
  | Nat.succ fuel, l =>
    match skipWs l with
    | [] => none
    | c :: r =>
      if c = '"' then
        match jsonStringRest r with
        | none => none
        | some rest =>
          match skipWs rest with
          | ':' :: r2 =>
            match jsonValue fuel r2 with
            | none => none
            | some rest2 =>
              match skipWs rest2 with
              | [] => none
              | d :: r3 =>
                if d = ',' then jsonObjectMembers fuel r3
                else if d = rbrace then some r3
                else none
          | _ => none
      else none

end

/-- Model of `serde_json::from_str::<serde_json::Value>(s).is_ok()`. -/
def isValidJson (s : String) : Bool :=
  match jsonValue (s.length + 1) s.data with
  | some rest => (skipWs rest).isEmpty
  | none => false

/-! ## Socket.IO codec (`socketio/src/socket.rs`) -/

/-- `Payload` enum (`socketio/src/payload.rs`); the three variants are matched
in `Socket::encode_payloads`.  Binary bytes are modelled as `List Nat`. -/
inductive Payload where
  | String (s : String)
  | Binary (b : List Nat)
  | Number (n : Int)
  deriving Repr, DecidableEq

/-- Socket.IO `PacketId` (`socketio/src/packet.rs`); numeric values per the spec
table `Connect=0 … BinaryAck=6`. -/
inductive PacketId where
  | Connect
  | Disconnect
  | Event
  | Ack
  | ConnectError
  | BinaryEvent
  | BinaryAck
  deriving Repr, DecidableEq

def PacketId.toNat : PacketId → Nat
  | .Connect => 0
  | .Disconnect => 1
  | .Event => 2
  | .Ack => 3
  | .ConnectError => 4
  | .BinaryEvent => 5
  | .BinaryAck => 6

/-- Socket.IO `Packet` (`socketio/src/packet.rs`), as constructed by
`Packet::new` in `Socket::build_packet_for_payloads`.  `attachment_count`
is a `u8` in the source; the `as u8` cast is the `% 256` below. -/
structure Packet where
  packet_type : PacketId
  nsp : String
  data : Option String
  id : Option Int
  attachment_count : Nat
  attachments : Option (List (List Nat))
  deriving Repr, DecidableEq

/-- The loop's trailing `if index < payloads.len() - 1 { *data += "," }`. -/
def withComma (total idx : Nat) (s : String) : String :=
  if idx < total - 1 then s ++ "," else s

/-- The body of the `for (index, payload) in payloads.iter().enumerate()` loop
of `Socket::encode_payloads`: `total` is `payloads.len()` of the original call,
`idx` the current index, `data`/`attachments` the accumulators. -/
def encode_payloads_go : Nat → Nat → List Payload → String → List (List Nat) →
    String × List (List Nat)
  | _, _, [], data, attachments => (data, attachments)
  | total, idx, Payload.Number n :: rest, data, attachments =>
    encode_payloads_go total (idx + 1) rest (withComma total idx (data ++ toString n)) attachments
  | total, idx, Payload.Binary b :: rest, data, attachments =>
    encode_payloads_go total (idx + 1) rest
      (withComma total idx
        (data ++ "\x7b\"_placeholder\":true,\"num\":" ++ toString attachments.length ++ "\x7d"))
      (attachments ++ [b])
  | total, idx, Payload.String s :: rest, data, attachments =>
    encode_payloads_go total (idx + 1) rest
      (withComma total idx (if isValidJson s then data ++ s else data ++ "\"" ++ s ++ "\""))
      attachments

/-- `Socket::encode_payloads` (socket.rs lines 132–155): appends to `data` and
`attachments` in place; modelled by returning the final pair. -/
def encode_payloads (data : String) (payloads : List Payload)
    (attachments : List (List Nat)) : String × List (List Nat) :=
  encode_payloads_go payloads.length 0 payloads data attachments

/-- `Socket::encode_data` (socket.rs lines 114–130). -/
def encode_data (event : Option String) (payloads : List Payload) : String × List (List Nat) :=
  let data0 := "[" ++ (match event with
    | some ev => "\"" ++ ev ++ "\"" ++ (if payloads.isEmpty then "" else ",")
    | none => "")
  let r := encode_payloads data0 payloads []
  (r.1 ++ "]", r.2)

/-- `Socket::build_packet_for_payloads` (socket.rs lines 88–112).  The source
returns `Result<Packet>` but every path is `Ok`; modelled as a plain `Packet`. -/
def build_packet_for_payloads (payloads : List Payload) (event : Option String)
    (nsp : String) (id : Option Int) (is_ack : Bool) : Packet :=
  let r := encode_data event payloads
  let packet_type :=
    if r.2.isEmpty then (if is_ack then PacketId.Ack else PacketId.Event)
    else (if is_ack then PacketId.BinaryAck else PacketId.BinaryEvent)
  { packet_type := packet_type
    nsp := nsp
    data := some r.1
    id := id
    attachment_count := r.2.length % 256
    attachments := some r.2 }

/-- Modelled from the spec: the wire serialization `Bytes::from(&Packet)` lives
in `socketio/src/packet.rs`, which is not among the sources.  The spec gives the
wire form `<type><attachmentCount>-<namespace>,<id><data>`: attachmentCount and
its trailing `-` appear only for the Binary* types, namespace and its trailing
`,` only when the namespace differs from `/`, and the id is optional. -/
def Packet.toBytes (p : Packet) : String :=
  toString p.packet_type.toNat
    ++ (if p.packet_type = PacketId.BinaryEvent ∨ p.packet_type = PacketId.BinaryAck
        then toString p.attachment_count ++ "-" else "")
    ++ (if p.nsp ≠ "/" then p.nsp ++ "," else "")
    ++ (match p.id with | some i => toString i | none => "")
    ++ (match p.data with | some d => d | none => "")

/-! Specification-side vocabulary for claim C1: the JSON chunk each payload
contributes, with a running count of binary payloads seen so far. -/

/-- The JSON text a single payload contributes when `k` binary payloads
precede it. -/
def payloadChunk (k : Nat) : Payload → String
  | Payload.Number n => toString n
  | Payload.Binary _ => "\x7b\"_placeholder\":true,\"num\":" ++ toString k ++ "\x7d"
  | Payload.String s => if isValidJson s then s else "\"" ++ s ++ "\""

/-- Chunks of a payload list, threading the count of binary payloads. -/
def payloadChunks (k : Nat) : List Payload → List String
  | [] => []
  | p :: rest =>
    payloadChunk k p ::
      payloadChunks (k + match p with | Payload.Binary _ => 1 | _ => 0) rest

/-- The bytes of the binary payloads, in their original order. -/
def binaryData : List Payload → List (List Nat)
  | [] => []
  | Payload.Binary b :: rest => b :: binaryData rest
  | Payload.String _ :: rest => binaryData rest
  | Payload.Number _ :: rest => binaryData rest

/-- Comma-join, as the encoder's `index < payloads.len() - 1` test produces. -/
def joinComma : List String → String
  | [] => ""
  | [c] => c
  | c :: rest => c ++ "," ++ joinComma rest

/-- The encoder loop appends, after the initial accumulators, the comma-joined
chunks and the binary payload bytes in order, with each binary payload's
placeholder index equal to the number of attachments already accumulated. -/
theorem encode_payloads_go_spec (ps : List Payload) :
    ∀ (total i : Nat) (data : String) (atts : List (List Nat)),
      i + ps.length = total →
      encode_payloads_go total i ps data atts =
        (data ++ joinComma (payloadChunks atts.length ps), atts ++ binaryData ps) := by
  induction ps with
  | nil =>
    intro total i data atts _
    simp [encode_payloads_go, joinComma, payloadChunks, binaryData]
  | cons p rest ih =>
    intro total i data atts h
    cases rest with
    | nil =>
      have hi : ¬ i < total - 1 := by simp at h; omega
      cases p with
      | Number n =>
        simp [encode_payloads_go, withComma, hi, joinComma, payloadChunks, payloadChunk,
          binaryData]
      | Binary b =>
        simp [encode_payloads_go, withComma, hi, joinComma, payloadChunks, payloadChunk,
          binaryData, String.append_assoc]
      | String s =>
        by_cases hj : isValidJson s <;>
          simp [encode_payloads_go, withComma, hi, joinComma, payloadChunks, payloadChunk,
            binaryData, hj, String.append_assoc]
    | cons q rest' =>
      have hi : i < total - 1 := by simp at h; omega
      have h' : i + 1 + (q :: rest').length = total := by simp at h ⊢; omega
      cases p with
      | Number n =>
        rw [encode_payloads_go, ih total (i + 1) _ _ h']
        simp [withComma, hi, payloadChunks, payloadChunk, joinComma, binaryData,
          String.append_assoc]
      | Binary b =>
        rw [encode_payloads_go, ih total (i + 1) _ _ h']
        simp [withComma, hi, payloadChunks, payloadChunk, joinComma, binaryData,
          String.append_assoc]
      | String s =>
        rw [encode_payloads_go, ih total (i + 1) _ _ h']
        by_cases hj : isValidJson s <;>
          simp [withComma, hi, payloadChunks, payloadChunk, joinComma, binaryData, hj,
            String.append_assoc]

/-- **C1.** Every `Binary` payload is replaced in the JSON data array by
`{"_placeholder":true,"num":K}` with `K` the number of binary payloads
preceding it, and the attachments are exactly the binary payloads' bytes in
order; the event `"hello"` with the single payload `Binary([1,2,3])` on
namespace `/` with no id encodes to data `["hello",{"_placeholder":true,"num":0}]`
with one attachment `[1,2,3]` and wire bytes
`51-["hello",{"_placeholder":true,"num":0}]`. -/
theorem c1_binary_placeholders :
    (∀ (data0 : String) (ps : List Payload),
        encode_payloads data0 ps [] = (data0 ++ joinComma (payloadChunks 0 ps), binaryData ps))
    ∧ (∀ (ps : List Payload) (event : Option String) (nsp : String) (id : Option Int)
          ( is_ack : Bool),
        (build_packet_for_payloads ps event nsp id is_ack).attachments = some (binaryData ps))
    ∧ build_packet_for_payloads [Payload.Binary [1, 2, 3]] (some "hello") "/" none false =
        { packet_type := PacketId.BinaryEvent
          nsp := "/"
          data := some "[\"hello\",\x7b\"_placeholder\":true,\"num\":0\x7d]"
          id := none
          attachment_count := 1
          attachments := some [[1, 2, 3]] }
    ∧ (build_packet_for_payloads [Payload.Binary [1, 2, 3]] (some "hello") "/" none false).toBytes
        = "51-[\"hello\",\x7b\"_placeholder\":true,\"num\":0\x7d]" := by
  have key : ∀ (data0 : String) (ps : List Payload),
      encode_payloads data0 ps [] =
        (data0 ++ joinComma (payloadChunks 0 ps), binaryData ps) := by
    intro data0 ps
    have h := encode_payloads_go_spec ps ps.length 0 data0 [] (by simp)
    simpa [encode_payloads] using h
  refine ⟨key, ?_, by decide, by decide⟩
  intro ps event nsp id ack
  simp [build_packet_for_payloads, encode_data, key]

/-! ## Engine.IO packets (the `EnginePacket`/`EnginePacketId` aliases of socket.rs) -/

/-- Engine.IO `PacketId` (`engineio/src/packet.rs`, used through the aliases in
socket.rs).  Spec §3: `Open=0, Close=1, Ping=2, Pong=3, Message=4, Upgrade=5,
Noop=6, MessageBinary` (the latter is carried as a raw binary frame). -/
inductive EnginePacketId where
  | Open
  | Close
  | Ping
  | Pong
  | Message
  | Upgrade
  | Noop
  | MessageBinary
  deriving Repr, DecidableEq

/-- Modelled from the spec: the ASCII-digit codes of the text packet ids
(spec §3); `MessageBinary` is framed as a binary frame and never printed as a
digit, so its numeric value is unused by any claim. -/
def EnginePacketId.toU8 : EnginePacketId → Nat
  | .Open => 0
  | .Close => 1
  | .Ping => 2
  | .Pong => 3
  | .Message => 4
  | .Upgrade => 5
  | .Noop => 6
  | .MessageBinary => 4

/-- Engine.IO `Packet`: `(packet_id, data)` with the payload bytes as `List Nat`. -/
structure EnginePacket where
  packet_id : EnginePacketId
  data : List Nat
  deriving Repr, DecidableEq

/-- The error kinds exercised by the embedded code paths.  The engineio and
socketio error enums are collapsed into one type; `Engine` stands for an error
bubbled up from the engine.io client's `poll`.
`InvalidAttachmentPacketType` keeps the offending packet id (the source stores
its `u8` code). -/
inductive Error where
  | IllegalActionBeforeOpen
  | IncompletePacket
  | InvalidAttachmentPacketType (id : EnginePacketId)
  | Engine
  deriving Repr, DecidableEq

/-! ## Attachment pairing (`Socket::handle_engineio_packet`, socket.rs 197–229)

The engine.io client's inbound side is modelled as a list of `poll` outcomes:
`Except.error ()` for `Err(_)`, `Except.ok p` for `Ok(Some(p))`, and the end of
the list for `Ok(None)` (the stream closed). -/

/-- The `while attachments_left > 0` loop of `Socket::handle_engineio_packet`
(socket.rs lines 204–224): returns the collected attachment bodies and the
unconsumed remainder of the stream. -/
def collect_attachments : Nat → List (List Nat) → List (Except Unit EnginePacket) →
    Except Error (List (List Nat) × List (Except Unit EnginePacket))
  | 0, acc, stream => .ok (acc, stream)
  | Nat.succ left, acc, stream =>
    match stream with
    | [] => .error Error.IncompletePacket
    | .error _ :: _ => .error Error.Engine
    | .ok p :: rest =>
      match p.packet_id with
      | EnginePacketId.MessageBinary => collect_attachments left (acc ++ [p.data]) rest
      | EnginePacketId.Message => collect_attachments left (acc ++ [p.data]) rest
      | _ => .error (Error.InvalidAttachmentPacketType p.packet_id)

/-- `Socket::handle_engineio_packet` (socket.rs lines 197–229) after the
`Packet::try_from` decode (the decoder lives in `socketio/src/packet.rs`, which
is not among the sources, so the already-decoded packet is the input). -/
def handle_engineio_packet (socket_packet : Packet)
    (stream : List (Except Unit EnginePacket)) :
    Except Error (Packet × List (Except Unit EnginePacket)) :=
  if socket_packet.attachment_count > 0 then
    match collect_attachments socket_packet.attachment_count [] stream with
    | .error e => .error e
    | .ok (atts, rest) => .ok ({ socket_packet with attachments := some atts }, rest)
  else .ok (socket_packet, stream)

/-- A frame the attachment loop accepts: `Message` or `MessageBinary`. -/
def messageLike (p : EnginePacket) : Prop :=
  p.packet_id = EnginePacketId.Message ∨ p.packet_id = EnginePacketId.MessageBinary

instance (p : EnginePacket) : Decidable (messageLike p) := by
  unfold messageLike; infer_instance

theorem collect_attachments_ok (msgs : List EnginePacket) :
    ∀ (acc : List (List Nat)) (rest : List (Except Unit EnginePacket)),
      (∀ m ∈ msgs, messageLike m) →
      collect_attachments msgs.length acc (msgs.map Except.ok ++ rest) =
        .ok (acc ++ msgs.map EnginePacket.data, rest) := by
  induction msgs with
  | nil => intro acc rest _; simp [collect_attachments]
  | cons m msgs ih =>
    intro acc rest h
    have hm := h m (by simp)
    have hrest : ∀ x ∈ msgs, messageLike x := fun x hx => h x (by simp [hx])
    rcases hm with hm | hm <;>
      simp [collect_attachments, hm, ih (acc ++ [m.data]) rest hrest, List.append_assoc]

theorem collect_attachments_incomplete (msgs : List EnginePacket) :
    ∀ (n : Nat) (acc : List (List Nat)),
      msgs.length < n → (∀ m ∈ msgs, messageLike m) →
      collect_attachments n acc (msgs.map Except.ok) = .error Error.IncompletePacket := by
  induction msgs with
  | nil =>
    intro n acc hn _
    match n, hn with
    | Nat.succ k, _ => simp [collect_attachments]
  | cons m msgs ih =>
    intro n acc hn h
    have hm := h m (by simp)
    have hrest : ∀ x ∈ msgs, messageLike x := fun x hx => h x (by simp [hx])
    match n, hn with
    | Nat.succ k, hn =>
      have hk : msgs.length < k := by simpa using hn
      rcases hm with hm | hm <;>
        simp [collect_attachments, hm, ih k (acc ++ [m.data]) hk hrest]

theorem collect_attachments_invalid (msgs : List EnginePacket) :
    ∀ (n : Nat) (acc : List (List Nat)) (bad : EnginePacket)
      (rest : List (Except Unit EnginePacket)),
      msgs.length < n → (∀ m ∈ msgs, messageLike m) → ¬ messageLike bad →
      collect_attachments n acc (msgs.map Except.ok ++ Except.ok bad :: rest) =
        .error (Error.InvalidAttachmentPacketType bad.packet_id) := by
  induction msgs with
  | nil =>
    intro n acc bad rest hn _ hbad
    match n, hn with
    | Nat.succ k, _ =>
      have h1 : bad.packet_id ≠ EnginePacketId.Message := fun h => hbad (Or.inl h)
      have h2 : bad.packet_id ≠ EnginePacketId.MessageBinary := fun h => hbad (Or.inr h)
      simp only [List.map_nil, List.nil_append]
      cases hid : bad.packet_id
      all_goals first
        | exact absurd hid h1
        | exact absurd hid h2
        | simp [collect_attachments, hid]
  | cons m msgs ih =>
    intro n acc bad rest hn h hbad
    have hm := h m (by simp)
    have hrest : ∀ x ∈ msgs, messageLike x := fun x hx => h x (by simp [hx])
    match n, hn with
    | Nat.succ k, hn =>
      have hk : msgs.length < k := by simpa using hn
      rcases hm with hm | hm <;>
        simp [collect_attachments, hm, ih k (acc ++ [m.data]) bad rest hk hrest hbad]

/-- **C3.** With `attachmentCount = N > 0`, `handle_engineio_packet` consumes
exactly the next `N` stream items as attachments in arrival order when they
are `Message`/`MessageBinary` frames; if the stream closes first it fails with
`IncompletePacket`; if a frame of another packet id arrives while attachments
are pending it fails with `InvalidAttachmentPacketType`. -/
theorem c3_attachment_pairing :
    (∀ (p : Packet) (msgs : List EnginePacket) (rest : List (Except Unit EnginePacket)),
        0 < p.attachment_count → msgs.length = p.attachment_count →
        (∀ m ∈ msgs, messageLike m) →
        handle_engineio_packet p (msgs.map Except.ok ++ rest) =
          .ok ({ p with attachments := some (msgs.map EnginePacket.data) }, rest))
    ∧ (∀ (p : Packet) (msgs : List EnginePacket),
        msgs.length < p.attachment_count → (∀ m ∈ msgs, messageLike m) →
        handle_engineio_packet p (msgs.map Except.ok) = .error Error.IncompletePacket)
    ∧ (∀ (p : Packet) (msgs : List EnginePacket) (bad : EnginePacket)
          (rest : List (Except Unit EnginePacket)),
        msgs.length < p.attachment_count → (∀ m ∈ msgs, messageLike m) → ¬ messageLike bad →
        handle_engineio_packet p (msgs.map Except.ok ++ Except.ok bad :: rest) =
          .error (Error.InvalidAttachmentPacketType bad.packet_id)) := by
  refine ⟨?_, ?_, ?_⟩
  · intro p msgs rest hpos hlen h
    have := collect_attachments_ok msgs [] rest h
    rw [hlen] at this
    simp [handle_engineio_packet, hpos, this]
  · intro p msgs hlt h
    have hpos : 0 < p.attachment_count := Nat.lt_of_le_of_lt (Nat.zero_le _) hlt
    simp [handle_engineio_packet, hpos,
      collect_attachments_incomplete msgs p.attachment_count [] hlt h]
  · intro p msgs bad rest hlt h hbad
    have hpos : 0 < p.attachment_count := Nat.lt_of_le_of_lt (Nat.zero_le _) hlt
    simp [handle_engineio_packet, hpos,
      collect_attachments_invalid msgs p.attachment_count [] bad rest hlt h hbad]

/-- Witness for C3: a concrete `BinaryEvent` packet with one pending
attachment, run against the three stream shapes. -/
theorem c3_attachment_pairing_witness :
    handle_engineio_packet
        { packet_type := PacketId.BinaryEvent, nsp := "/", data := some "x", id := none,
          attachment_count := 1, attachments := none }
        ([{ packet_id := EnginePacketId.MessageBinary, data := [1, 2, 3] }].map Except.ok ++ [])
      = .ok ({ packet_type := PacketId.BinaryEvent, nsp := "/", data := some "x", id := none,
               attachment_count := 1, attachments := some [[1, 2, 3]] }, [])
    ∧ handle_engineio_packet
        { packet_type := PacketId.BinaryEvent, nsp := "/", data := some "x", id := none,
          attachment_count := 1, attachments := none }
        (([] : List EnginePacket).map Except.ok)
      = .error Error.IncompletePacket
    ∧ handle_engineio_packet
        { packet_type := PacketId.BinaryEvent, nsp := "/", data := some "x", id := none,
          attachment_count := 1, attachments := none }
        (([] : List EnginePacket).map Except.ok ++
          Except.ok { packet_id := EnginePacketId.Ping, data := [] } :: [])
      = .error (Error.InvalidAttachmentPacketType EnginePacketId.Ping) := by
  refine ⟨?_, ?_, ?_⟩
  · exact c3_attachment_pairing.1 _ [{ packet_id := EnginePacketId.MessageBinary, data := [1, 2, 3] }] []
      (by decide) (by decide) (by decide)
  · exact c3_attachment_pairing.2.1 _ [] (by decide) (by decide)
  · exact c3_attachment_pairing.2.2 _ [] { packet_id := EnginePacketId.Ping, data := [] } []
      (by decide) (by decide) (by decide)

/-! ## The socket.io `Socket` (socket.rs 13–83) -/

/-- Modelled from the spec: the engine.io `Client` (crate `rust-engineio`'s
client, not among the sources) as the socket.io `Socket` uses it —
`is_connected` reports the client's connection flag and `emit` enqueues a frame
on the outbound side (spec §4.E). -/
structure EngineClient where
  connected : Bool
  deriving Repr, DecidableEq

/-- The socket.io `Socket` struct (socket.rs lines 13–17): the engine client
plus the `connected` atomic flag. -/
structure Socket where
  engine_client : EngineClient
  connected : Bool
  deriving Repr, DecidableEq

/-- `Socket::new` (socket.rs lines 22–27): `AtomicBool::default()` is `false`. -/
def Socket.new (engine_client : EngineClient) : Socket :=
  { engine_client := engine_client, connected := false }

/-- `Socket::disconnect` (socket.rs lines 43–51): disconnects the engine
client (modelled from the spec as clearing its connection flag) and stores
`false` into `connected`; modelled as the state after the call. -/
def Socket.disconnect (_s : Socket) : Socket :=
  { engine_client := { connected := false }, connected := false }

/-- `Socket::send` (socket.rs lines 54–71): refuses with
`IllegalActionBeforeOpen` unless both the engine.io client and the socket.io
`connected` flag report connected; otherwise emits the `Message` frame carrying
the packet's wire bytes followed by one `MessageBinary` frame per attachment.
The returned list is the sequence of frames handed to `engine_client.emit`
(the spec-modelled `emit` enqueues and succeeds). -/
def Socket.send (s : Socket) (packet : Packet) : Except Error (List EnginePacket) :=
  if !s.engine_client.connected || !s.connected then
    .error Error.IllegalActionBeforeOpen
  else
    .ok ({ packet_id := EnginePacketId.Message,
           data := packet.toBytes.toUTF8.toList.map (fun b => b.toNat) } ::
         (match packet.attachments with
          | some atts =>
            atts.map (fun a => { packet_id := EnginePacketId.MessageBinary, data := a })
          | none => []))

/-- **C4.** `Socket::send` returns `Err(IllegalActionBeforeOpen)` and emits no
frame whenever the engine.io client reports not connected or the socket's
`connected` flag is false — in particular on a fresh socket (before `connect`)
and after `disconnect`.  The model is a total function, so no panic is
possible. -/
theorem c4_send_illegal_before_open :
    (∀ (s : Socket) (p : Packet),
        s.engine_client.connected = false ∨ s.connected = false →
        s.send p = .error Error.IllegalActionBeforeOpen)
    ∧ (∀ (e : EngineClient) (p : Packet),
        (Socket.new e).send p = .error Error.IllegalActionBeforeOpen)
    ∧ (∀ (s : Socket) (p : Packet),
        s.disconnect.send p = .error Error.IllegalActionBeforeOpen) := by
  refine ⟨?_, ?_, ?_⟩
  · intro s p h
    rcases h with h | h <;> simp [Socket.send, h]
  · intro e p
    simp [Socket.send, Socket.new]
  · intro s p
    simp [Socket.send, Socket.disconnect]

/-- Witness for C4: a socket whose engine client is connected but whose
socket.io flag is still false refuses to send. -/
theorem c4_send_illegal_before_open_witness :
    Socket.send { engine_client := { connected := true }, connected := false }
        { packet_type := PacketId.Event, nsp := "/", data := some "[\"hello\"]", id := none,
          attachment_count := 0, attachments := none }
      = .error Error.IllegalActionBeforeOpen :=
  c4_send_illegal_before_open.1 _ _ (Or.inr rfl)

/-! ## The engine.io server registry (`server.rs`) -/

/-- Modelled from the spec: the engine.io server-side session socket
(`engineio/src/asynchronous/async_socket.rs`, not among the sources) as far as
`Server::emit`/`Server::is_connected` use it — a `connected` flag, an `emit`
that enqueues the frame on the session's outbound side and fails with
`IllegalActionBeforeOpen` when not connected (spec §4.E). -/
structure ServerSocket where
  connected : Bool
  deriving Repr, DecidableEq

/-- Modelled from the spec (§4.E `emit(packet)`). -/
def ServerSocket.emit (s : ServerSocket) (packet : EnginePacket) :
    Except Error (List EnginePacket) :=
  if s.connected then .ok [packet] else .error Error.IllegalActionBeforeOpen

/-- The registry `sockets: RwLock<HashMap<String, Socket>>`, modelled as an
association list with unique keys; `HashMap::get` is `List.lookup`. -/
def Registry : Type := List (String × ServerSocket)

/-- `Server::emit` (server.rs lines 70–77): look the sid up; a present socket's
`emit` result propagates, a missing sid sends nothing and returns `Ok(())`.
The list is the frames actually handed to the session socket. -/
def Server.emit (sockets : Registry) (sid : String) (packet : EnginePacket) :
    Except Error (List EnginePacket) :=
  match List.lookup sid sockets with
  | some socket =>
    match socket.emit packet with
    | .error e => .error e
    | .ok sent => .ok sent
  | none => .ok []

/-- `Server::is_connected` (server.rs lines 79–85). -/
def Server.is_connected (sockets : Registry) (sid : String) : Except Error Bool :=
  match List.lookup sid sockets with
  | some s => .ok s.connected
  | none => .ok false

/-- **C10.** For a sid absent from the registry, `Server::emit` returns `Ok`
having sent no frame, and `Server::is_connected` returns `Ok(false)`. -/
theorem c10_emit_unknown_sid :
    ∀ (sockets : Registry) (sid : String) (packet : EnginePacket),
      List.lookup sid sockets = none →
      Server.emit sockets sid packet = .ok []
        ∧ Server.is_connected sockets sid = .ok false := by
  intro sockets sid packet h
  constructor <;> simp [Server.emit, Server.is_connected, h]

/-- Witness for C10: the empty registry. -/
theorem c10_emit_unknown_sid_witness :
    Server.emit [] "ZQ==" { packet_id := EnginePacketId.Ping, data := [] } = .ok []
      ∧ Server.is_connected [] "ZQ==" = .ok false :=
  c10_emit_unknown_sid [] "ZQ==" { packet_id := EnginePacketId.Ping, data := [] } rfl

/-! ## HTTP request classification (`accept.rs` 125–172)

`parse_request_type` feeds the peeked buffer to `httparse` and the request
target to `Url::parse` (external crates).  A successfully parsed head is the
input here: the method, the decoded query key/value pairs in order, the
headers in order (names as strings, values as byte lists, as `httparse`
yields them), and `idx`, the offset in `buf` where the head ends.  The body
slice `&buf[idx..idx + content_length]` is modelled explicitly; the outcome
`panicked` models the out-of-bounds slice panic. -/

/-- A parsed HTTP request head, the output of `httparse` plus the query pairs
of `Url::parse`. -/
structure HttpHead where
  method : String
  queryPairs : List (String × String)
  headers : List (String × List Nat)
  idx : Nat
  deriving Repr, DecidableEq

/-- `RequestType` (accept.rs lines 100–105).  The `PollingPost` sid is the
UTF-8 string over exactly the body bytes; it is modelled as those bytes. -/
inductive RequestType where
  | WsUpgrade (sid : Option String)
  | PollingOpen
  | PollingGet (sid : String)
  | PollingPost (sid : List Nat)
  deriving Repr, DecidableEq

/-- `Some`/`None` of the source, plus the slice-panic outcome. -/
inductive ParseOutcome where
  | panicked
  | result (r : Option RequestType)
  deriving Repr, DecidableEq

/-- Strict UTF-8 validity, as `std::str::from_utf8` checks it (no overlong
forms, no surrogates, no code points above U+10FFFF), as a byte-automaton:
`pending` continuation bytes are still expected, the next of which must lie
in `lo..=hi` (subsequent ones in `0x80..=0xBF`). -/
def utf8Go : Nat → Nat → Nat → List Nat → Bool
  | 0, _, _, [] => true
  | Nat.succ _, _, _, [] => false
  | Nat.succ pending, lo, hi, b :: rest =>
    if lo ≤ b ∧ b ≤ hi then utf8Go pending 128 191 rest else false
  | 0, _, _, b :: rest =>
    if b < 128 then utf8Go 0 128 191 rest
    else if 194 ≤ b ∧ b ≤ 223 then utf8Go 1 128 191 rest
    else if b = 224 then utf8Go 2 160 191 rest
    else if 225 ≤ b ∧ b ≤ 236 then utf8Go 2 128 191 rest
    else if b = 237 then utf8Go 2 128 159 rest
    else if 238 ≤ b ∧ b ≤ 239 then utf8Go 2 128 191 rest
    else if b = 240 then utf8Go 3 144 191 rest
    else if 241 ≤ b ∧ b ≤ 243 then utf8Go 3 128 191 rest
    else if b = 244 then utf8Go 3 128 143 rest
    else false

def utf8Valid (l : List Nat) : Bool := utf8Go 0 128 191 l

/-- `str::parse::<usize>` over bytes: an optional leading `+` (byte 43), then
one or more ASCII digits, value below `2^64`. -/
def parseUsizeBytes (value : List Nat) : Option Nat :=
  let digits := match value with
    | c :: r => if c = 43 then r else value
    | [] => value
  if digits.isEmpty then none
  else if digits.all (fun b => decide (48 ≤ b) && decide (b ≤ 57)) then
    let n := digits.foldl (fun acc b => acc * 10 + (b - 48)) 0
    if n < 2 ^ 64 then some n else none
  else none

/-- The two `.ok()?` steps of the `Content-Length` arm (accept.rs lines
156–159): `from_utf8(header.value)` then `parse::<usize>`. -/
def parse_content_length (value : List Nat) : Option Nat :=
  if utf8Valid value then parseUsizeBytes value else none

/-- Outcome of the `for (query_key, query_value) in url.query_pairs()` loop
(accept.rs lines 142–149). -/
inductive QueryScan where
  | reject
  | done (sid : Option String)
  deriving Repr, DecidableEq

def scanQuery : Option String → List (String × String) → QueryScan
  | sid, [] => .done sid
  | sid, (k, v) :: rest =>
    if k == "EIO" && v != "4" then .reject
    else if k == "sid" then scanQuery (some v) rest
    else scanQuery sid rest

/-- Outcome of the `for header in req.headers` loop (accept.rs lines 151–160). -/
inductive HeaderScan where
  | upgrade
  | reject
  | done (content_length : Nat)
  deriving Repr, DecidableEq

def scanHeaders (is_get : Bool) : Nat → List (String × List Nat) → HeaderScan
  | cl, [] => .done cl
  | cl, (name, value) :: rest =>
    if name == "Upgrade" && is_get then .upgrade
    else if name == "Content-Length" then
      match parse_content_length value with
      | none => .reject
      | some n => scanHeaders is_get n rest
    else scanHeaders is_get cl rest

/-- `parse_request_type` (accept.rs lines 125–172) after the external head
parse: the method gate, the query loop, the header loop, then the
POST-body/GET-sid dispatch.  `panicked` is the out-of-bounds body slice. -/
def parse_request_type (buf : List Nat) (head : HttpHead) : ParseOutcome :=
  if head.method != "GET" && head.method != "POST" then .result none
  else
    match scanQuery none head.queryPairs with
    | .reject => .result none
    | .done sid =>
      match scanHeaders (head.method == "GET") 0 head.headers with
      | .upgrade => .result (some (RequestType.WsUpgrade sid))
      | .reject => .result none
      | .done content_length =>
        if head.method == "POST" then
          if head.idx + content_length ≤ buf.length then
            let body := (buf.drop head.idx).take content_length
            if utf8Valid body then .result (some (RequestType.PollingPost body))
            else .result none
          else .panicked
        else
          match sid with
          | some s => .result (some (RequestType.PollingGet s))
          | none => .result (some RequestType.PollingOpen)

/-! Specification-side vocabulary for claims C2/C9. -/

/-- The running value of `sid` after the query loop: the last `sid=` pair. -/
def lastSid (sid0 : Option String) : List (String × String) → Option String
  | [] => sid0
  | (k, v) :: rest => lastSid (if k == "sid" then some v else sid0) rest

/-- Some query pair is `EIO=` with a value other than `"4"`. -/
def hasBadEio : List (String × String) → Bool
  | [] => false
  | (k, v) :: rest => (k == "EIO" && v != "4") || hasBadEio rest

/-- Every `Content-Length` header value parses as an integer. -/
def contentLengthsOk : List (String × List Nat) → Bool
  | [] => true
  | (name, value) :: rest =>
    (name != "Content-Length" || (parse_content_length value).isSome) && contentLengthsOk rest

/-- The running value of `content_length` after the header loop: the last
parsed `Content-Length` value, starting from `cl0`. -/
def lastContentLength (cl0 : Nat) : List (String × List Nat) → Nat
  | [] => cl0
  | (name, value) :: rest =>
    lastContentLength
      (if name == "Content-Length" then (parse_content_length value).getD cl0 else cl0) rest

theorem scanQuery_reject (pairs : List (String × String)) :
    ∀ sid0, hasBadEio pairs = true → scanQuery sid0 pairs = .reject := by
  induction pairs with
  | nil => intro sid0 h; simp [hasBadEio] at h
  | cons p rest ih =>
    obtain ⟨k, v⟩ := p
    intro sid0 h
    rw [hasBadEio] at h
    cases hb : (k == "EIO" && v != "4") with
    | true => simp [scanQuery, hb]
    | false =>
      rw [hb, Bool.false_or] at h
      by_cases hs : (k == "sid") = true <;>
        simp [scanQuery, hb, hs, ih _ h]

theorem scanQuery_done (pairs : List (String × String)) :
    ∀ sid0, hasBadEio pairs = false → scanQuery sid0 pairs = .done (lastSid sid0 pairs) := by
  induction pairs with
  | nil => intro sid0 _; simp [scanQuery, lastSid]
  | cons p rest ih =>
    obtain ⟨k, v⟩ := p
    intro sid0 h
    rw [hasBadEio] at h
    cases hb : (k == "EIO" && v != "4") with
    | true => rw [hb] at h; simp at h
    | false =>
      rw [hb, Bool.false_or] at h
      by_cases hs : (k == "sid") = true <;>
        simp [scanQuery, lastSid, hb, hs, ih _ h]

theorem scanHeaders_upgrade (headers : List (String × List Nat)) :
    ∀ cl0, "Upgrade" ∈ headers.map Prod.fst → contentLengthsOk headers = true →
      scanHeaders true cl0 headers = .upgrade := by
  induction headers with
  | nil => intro cl0 h _; simp at h
  | cons p rest ih =>
    obtain ⟨name, value⟩ := p
    intro cl0 hmem hok
    rw [contentLengthsOk, Bool.and_eq_true] at hok
    by_cases hn : name = "Upgrade"
    · simp [scanHeaders, hn]
    · have hmem' : "Upgrade" ∈ rest.map Prod.fst := by
        simp only [List.map_cons, List.mem_cons] at hmem
        rcases hmem with hmem | hmem
        · exact absurd hmem.symm hn
        · exact hmem
      by_cases hc : name = "Content-Length"
      · have hs : (parse_content_length value).isSome = true := by
          have h1 := hok.1
          simp [bne, hc] at h1
          exact h1
        obtain ⟨n, hp⟩ := Option.isSome_iff_exists.mp hs
        simp [scanHeaders, hn, hc, hp, ih _ hmem' hok.2]
      · simp [scanHeaders, hn, hc, ih _ hmem' hok.2]

/-- When the method is not GET or no `Upgrade` header occurs, a malformed
`Content-Length` value makes the header loop reject. -/
theorem scanHeaders_reject (headers : List (String × List Nat)) :
    ∀ (is_get : Bool) (cl0 : Nat),
      (is_get = false ∨ "Upgrade" ∉ headers.map Prod.fst) →
      contentLengthsOk headers = false →
      scanHeaders is_get cl0 headers = .reject := by
  induction headers with
  | nil => intro g cl0 _ h; simp [contentLengthsOk] at h
  | cons p rest ih =>
    obtain ⟨name, value⟩ := p
    intro g cl0 hbar hok
    have hng : (name == "Upgrade" && g) = false := by
      rcases hbar with hbar | hbar
      · rw [hbar, Bool.and_false]
      · have h1 : (name == "Upgrade") = false := by
          by_cases he : name = "Upgrade"
          · exact absurd (by simp [he]) hbar
          · simp [he]
        rw [h1, Bool.false_and]
    have hbar' : g = false ∨ "Upgrade" ∉ rest.map Prod.fst := by
      rcases hbar with hbar | hbar
      · exact Or.inl hbar
      · exact Or.inr (fun h => hbar (by simp [h]))
    rw [contentLengthsOk] at hok
    by_cases hc : name = "Content-Length"
    · cases hp : parse_content_length value with
      | none => simp [scanHeaders, hng, hc, hp]
      | some n =>
        have hrest : contentLengthsOk rest = false := by
          rw [hp] at hok
          simpa [bne, hc] using hok
        simp [scanHeaders, hng, hc, hp, ih _ _ hbar' hrest]
    · have hrest : contentLengthsOk rest = false := by
        simpa [bne, hc] using hok
      simp [scanHeaders, hng, hc, ih _ _ hbar' hrest]

theorem scanHeaders_done (headers : List (String × List Nat)) :
    ∀ (is_get : Bool) (cl0 : Nat),
      (is_get = false ∨ "Upgrade" ∉ headers.map Prod.fst) →
      contentLengthsOk headers = true →
      scanHeaders is_get cl0 headers = .done (lastContentLength cl0 headers) := by
  induction headers with
  | nil => intro g cl0 _ _; simp [scanHeaders, lastContentLength]
  | cons p rest ih =>
    obtain ⟨name, value⟩ := p
    intro g cl0 hbar hok
    have hng : (name == "Upgrade" && g) = false := by
      rcases hbar with hbar | hbar
      · rw [hbar, Bool.and_false]
      · have h1 : (name == "Upgrade") = false := by
          by_cases he : name = "Upgrade"
          · exact absurd (by simp [he]) hbar
          · simp [he]
        rw [h1, Bool.false_and]
    have hbar' : g = false ∨ "Upgrade" ∉ rest.map Prod.fst := by
      rcases hbar with hbar | hbar
      · exact Or.inl hbar
      · exact Or.inr (fun h => hbar (by simp [h]))
    rw [contentLengthsOk, Bool.and_eq_true] at hok
    by_cases hc : name = "Content-Length"
    · have hs : (parse_content_length value).isSome = true := by
        have h1 := hok.1
        simp [bne, hc] at h1
        exact h1
      obtain ⟨n, hp⟩ := Option.isSome_iff_exists.mp hs
      simp [scanHeaders, lastContentLength, hng, hc, hp, ih _ _ hbar' hok.2]
    · simp [scanHeaders, lastContentLength, hng, hc, ih _ _ hbar' hok.2]

/-- Order sensitivity, part 1: with method GET, an `Upgrade` header whose
preceding `Content-Length` values all parse makes the header loop return
`upgrade`, whatever follows it. -/
theorem scanHeaders_upgrade_prefix (pre : List (String × List Nat)) :
    ∀ (v : List Nat) (post : List (String × List Nat)) (cl0 : Nat),
      contentLengthsOk pre = true →
      scanHeaders true cl0 (pre ++ ("Upgrade", v) :: post) = .upgrade := by
  induction pre with
  | nil => intro v post cl0 _; simp [scanHeaders]
  | cons p rest ih =>
    obtain ⟨name, value⟩ := p
    intro v post cl0 hok
    rw [contentLengthsOk, Bool.and_eq_true] at hok
    by_cases hn : name = "Upgrade"
    · simp [scanHeaders, hn]
    · by_cases hc : name = "Content-Length"
      · have hs : (parse_content_length value).isSome = true := by
          have h1 := hok.1
          simp [bne, hc] at h1
          exact h1
        obtain ⟨n, hp⟩ := Option.isSome_iff_exists.mp hs
        simp [scanHeaders, hn, hc, hp, ih v post n hok.2]
      · simp [scanHeaders, hn, hc, ih v post cl0 hok.2]

/-- Order sensitivity, part 2: a `Content-Length` header whose value does
not parse rejects when the loop reaches it, that is, when no `Upgrade`
header precedes it (or the method is not GET). -/
theorem scanHeaders_badcl_prefix (pre : List (String × List Nat)) :
    ∀ (is_get : Bool) (v : List Nat) (post : List (String × List Nat)) (cl0 : Nat),
      (is_get = false ∨ "Upgrade" ∉ pre.map Prod.fst) →
      parse_content_length v = none →
      scanHeaders is_get cl0 (pre ++ ("Content-Length", v) :: post) = .reject := by
  induction pre with
  | nil =>
    intro g v post cl0 _ hv
    have hne : (("Content-Length" : String) == "Upgrade") = false := by decide
    simp [scanHeaders, hne, hv]
  | cons p rest ih =>
    obtain ⟨name, value⟩ := p
    intro g v post cl0 hbar hv
    have hng : (name == "Upgrade" && g) = false := by
      rcases hbar with hbar | hbar
      · rw [hbar, Bool.and_false]
      · have h1 : (name == "Upgrade") = false := by
          by_cases he : name = "Upgrade"
          · exact absurd (by simp [he]) hbar
          · simp [he]
        rw [h1, Bool.false_and]
    have hbar' : g = false ∨ "Upgrade" ∉ rest.map Prod.fst := by
      rcases hbar with hbar | hbar
      · exact Or.inl hbar
      · exact Or.inr (fun h => hbar (by simp [h]))
    by_cases hc : name = "Content-Length"
    · cases hp : parse_content_length value with
      | none => simp [scanHeaders, hng, hc, hp]
      | some n => simp [scanHeaders, hng, hc, hp, ih g v post n hbar' hv]
    · simp [scanHeaders, hng, hc, ih g v post cl0 hbar' hv]

/-- **C2 (counterexample).** A plain GET whose `Content-Length` header value
does not parse (here `"abc"`) is classified as nothing at all, where the
spec's table — method GET, no `EIO` violation, no `Upgrade` header, no `sid`
query — demands `PollingOpen`. -/
theorem c2_counterexample :
    parse_request_type []
        { method := "GET", queryPairs := [],
          headers := [("Content-Length", [97, 98, 99])], idx := 0 }
      = ParseOutcome.result none
    ∧ ParseOutcome.result none ≠ ParseOutcome.result (some RequestType.PollingOpen) := by
  constructor
  · decide
  · decide

/-- **C2 (amended).** The classification table of the spec, with the provisos
the code forces.  The header loop is order-sensitive: for GET, an `Upgrade`
header whose preceding `Content-Length` values all parse yields `WsUpgrade`
whatever follows; a `Content-Length` value that does not parse as an integer
yields no classification when the loop reaches it (no `Upgrade` header before
it, or method POST).  For POST the body must be valid UTF-8 (else no
classification) and must lie inside the peeked buffer (else the body slice
panics, cf. C9). -/
theorem c2_request_classification (buf : List Nat) (head : HttpHead) :
    (head.method ≠ "GET" → head.method ≠ "POST" →
      parse_request_type buf head = .result none)
    ∧ ((head.method = "GET" ∨ head.method = "POST") → hasBadEio head.queryPairs = true →
        parse_request_type buf head = .result none)
    ∧ (head.method = "GET" → hasBadEio head.queryPairs = false →
        ∀ (pre : List (String × List Nat)) (v : List Nat) (post : List (String × List Nat)),
          head.headers = pre ++ ("Upgrade", v) :: post → contentLengthsOk pre = true →
          parse_request_type buf head =
            .result (some (RequestType.WsUpgrade (lastSid none head.queryPairs))))
    ∧ ((head.method = "GET" ∨ head.method = "POST") → hasBadEio head.queryPairs = false →
        ∀ (pre : List (String × List Nat)) (v : List Nat) (post : List (String × List Nat)),
          head.headers = pre ++ ("Content-Length", v) :: post →
          parse_content_length v = none →
          (head.method = "POST" ∨ "Upgrade" ∉ pre.map Prod.fst) →
          parse_request_type buf head = .result none)
    ∧ (head.method = "POST" → hasBadEio head.queryPairs = false →
        contentLengthsOk head.headers = true →
        (head.idx + lastContentLength 0 head.headers ≤ buf.length →
          (utf8Valid ((buf.drop head.idx).take (lastContentLength 0 head.headers)) = true →
            parse_request_type buf head =
              .result (some (RequestType.PollingPost
                ((buf.drop head.idx).take (lastContentLength 0 head.headers)))))
          ∧ (utf8Valid ((buf.drop head.idx).take (lastContentLength 0 head.headers)) = false →
            parse_request_type buf head = .result none))
        ∧ (buf.length < head.idx + lastContentLength 0 head.headers →
            parse_request_type buf head = .panicked))
    ∧ (head.method = "GET" → hasBadEio head.queryPairs = false →
        "Upgrade" ∉ head.headers.map Prod.fst → contentLengthsOk head.headers = true →
        parse_request_type buf head =
          .result (match lastSid none head.queryPairs with
            | some s => some (RequestType.PollingGet s)
            | none => some RequestType.PollingOpen)) := by
  refine ⟨?_, ?_, ?_, ?_, ?_, ?_⟩
  · intro h1 h2
    have hb : (head.method != "GET" && head.method != "POST") = true := by
      simp [h1, h2]
    simp [parse_request_type, hb]
  · intro hm hq
    have hb : (head.method != "GET" && head.method != "POST") = false := by
      rcases hm with hm | hm <;> simp [hm]
    simp [parse_request_type, hb, scanQuery_reject _ _ hq]
  · intro hm hq pre v post hsplit hok
    have hscan : scanHeaders true 0 head.headers = .upgrade := by
      rw [hsplit]; exact scanHeaders_upgrade_prefix pre v post 0 hok
    simp [parse_request_type, hm, scanQuery_done _ _ hq, hscan]
  · intro hm hq pre v post hsplit hv hbar
    have hb : (head.method != "GET" && head.method != "POST") = false := by
      rcases hm with hm | hm <;> simp [hm]
    have hbar' : (head.method == "GET") = false ∨ "Upgrade" ∉ pre.map Prod.fst := by
      rcases hbar with hbar | hbar
      · left; simp [hbar]
      · exact Or.inr hbar
    have hscan : scanHeaders (head.method == "GET") 0 head.headers = .reject := by
      rw [hsplit]; exact scanHeaders_badcl_prefix pre _ v post 0 hbar' hv
    simp [parse_request_type, hb, scanQuery_done _ _ hq, hscan]
  · intro hm hq hok
    have hscan : scanHeaders false 0 head.headers = .done (lastContentLength 0 head.headers) :=
      scanHeaders_done _ false 0 (Or.inl rfl) hok
    refine ⟨fun hle => ⟨fun hv => ?_, fun hv => ?_⟩, fun hgt => ?_⟩
    · simp [parse_request_type, hm, scanQuery_done _ _ hq, hscan, hle, hv]
    · simp [parse_request_type, hm, scanQuery_done _ _ hq, hscan, hle, hv]
    · have hnle : ¬ head.idx + lastContentLength 0 head.headers ≤ buf.length := by omega
      simp [parse_request_type, hm, scanQuery_done _ _ hq, hscan, hnle]
  · intro hm hq hup hok
    have hscan : scanHeaders true 0 head.headers = .done (lastContentLength 0 head.headers) :=
      scanHeaders_done _ true 0 (Or.inr hup) hok
    cases hsid : lastSid none head.queryPairs with
    | some s => simp [parse_request_type, hm, scanQuery_done _ _ hq, hscan, hsid]
    | none => simp [parse_request_type, hm, scanQuery_done _ _ hq, hscan, hsid]

/-- Witness for the amended C2, at six concrete requests: a WebSocket
upgrade; the order-sensitive pair — `Upgrade` before a malformed
`Content-Length` still upgrades, while a malformed `Content-Length` before
`Upgrade` rejects; a polling GET with sid; a polling POST whose two body
bytes `"hi"` are within the buffer; and a rejected `EIO=3` request. -/
theorem c2_request_classification_witness :
    parse_request_type []
        { method := "GET", queryPairs := [("EIO", "4"), ("sid", "abc")],
          headers := [("Upgrade", [119])], idx := 0 }
      = .result (some (RequestType.WsUpgrade (some "abc")))
    ∧ parse_request_type []
        { method := "GET", queryPairs := [],
          headers := [("Upgrade", [119]), ("Content-Length", [97, 98, 99])], idx := 0 }
      = .result (some (RequestType.WsUpgrade none))
    ∧ parse_request_type []
        { method := "GET", queryPairs := [],
          headers := [("Content-Length", [97, 98, 99]), ("Upgrade", [119])], idx := 0 }
      = .result none
    ∧ parse_request_type []
        { method := "GET", queryPairs := [("EIO", "4"), ("sid", "abc")],
          headers := [], idx := 0 }
      = .result (some (RequestType.PollingGet "abc"))
    ∧ parse_request_type [104, 105]
        { method := "POST", queryPairs := [("EIO", "4")],
          headers := [("Content-Length", [50])], idx := 0 }
      = .result (some (RequestType.PollingPost [104, 105]))
    ∧ parse_request_type []
        { method := "GET", queryPairs := [("EIO", "3")], headers := [], idx := 0 }
      = .result none := by
  refine ⟨?_, ?_, ?_, ?_, ?_, ?_⟩
  · exact (c2_request_classification [] _).2.2.1 rfl (by decide) [] [119] [] rfl (by decide)
  · exact (c2_request_classification [] _).2.2.1 rfl (by decide) [] [119]
      [("Content-Length", [97, 98, 99])] rfl (by decide)
  · exact (c2_request_classification [] _).2.2.2.1 (Or.inl rfl) (by decide) []
      [97, 98, 99] [("Upgrade", [119])] rfl (by decide) (Or.inr (by decide))
  · have h := (c2_request_classification []
      { method := "GET", queryPairs := [("EIO", "4"), ("sid", "abc")],
        headers := [], idx := 0 }).2.2.2.2.2 rfl (by decide) (by decide) (by decide)
    simpa using h
  · have h := ((c2_request_classification [104, 105]
      { method := "POST", queryPairs := [("EIO", "4")],
        headers := [("Content-Length", [50])], idx := 0 }).2.2.2.2.1
        rfl (by decide) (by decide)).1 (by decide)
    exact h.1 (by decide)
  · exact (c2_request_classification [] _).2.1 (Or.inl rfl) (by decide)

/-- **C9 (refuting the totality claim).** A complete POST head whose
`Content-Length` (here 5) exceeds the body bytes present in the peeked buffer
(here none) drives `&buf[idx..idx + content_length]` out of bounds: the
classifier panics instead of returning `Some`/`None`. -/
theorem c9_body_slice_panics :
    parse_request_type []
        { method := "POST", queryPairs := [("EIO", "4")],
          headers := [("Content-Length", [53])], idx := 0 }
      = ParseOutcome.panicked := by decide

/-! ## Handshake and the polling acceptor (`accept.rs` 24–58, 180–206; `server.rs` 87–148) -/

/-- The standard base64 alphabet used by the `base64` crate's `encode`. -/
def base64Chars : List Char :=
  "ABCDEFGHIJKLMNOPQRSTUVWXYZabcdefghijklmnopqrstuvwxyz0123456789+/".data

def b64Char (n : Nat) : Char := base64Chars.getD n 'A'

/-- `base64::encode` (standard alphabet, `=` padding). -/
def base64Encode : List Nat → String
  | [] => ""
  | [a] => String.mk [b64Char (a / 4), b64Char (a % 4 * 16), '=', '=']
  | [a, b] => String.mk [b64Char (a / 4), b64Char (a % 4 * 16 + b / 16), b64Char (b % 16 * 4), '=']
  | a :: b :: c :: rest =>
    String.mk [b64Char (a / 4), b64Char (a % 4 * 16 + b / 16), b64Char (b % 16 * 4 + c / 64),
      b64Char (c % 64)] ++ base64Encode rest

/-- `SidGenerator` (accept.rs lines 24–34): an atomic counter whose decimal
text is base64-encoded (the decimal digits are ASCII, so their bytes are the
characters' code points).  The counter value is explicit state. -/
structure SidGenerator where
  seq : Nat
  deriving Repr, DecidableEq

def SidGenerator.generate (g : SidGenerator) : String × SidGenerator :=
  (base64Encode ((toString g.seq).data.map Char.toNat), { seq := g.seq + 1 })

/-- `ServerOption` (server.rs lines 23–37); the `Default` values are
`ping_interval = 25000`, `ping_timeout = 20000`. -/
structure ServerOption where
  ping_timeout : Nat
  ping_interval : Nat
  deriving Repr, DecidableEq

def ServerOption.default : ServerOption := { ping_timeout := 20000, ping_interval := 25000 }

/-- `HandshakePacket` (engineio/src/packet.rs, not among the sources); its
fields per spec §3. -/
structure HandshakePacket where
  sid : String
  upgrades : List String
  ping_interval : Nat
  ping_timeout : Nat
  deriving Repr, DecidableEq

/-- The `Server` fields the embedded operations read (server.rs `Inner`). -/
structure ServerState where
  id_generator : SidGenerator
  server_option : ServerOption
  deriving Repr, DecidableEq

/-- `Server::handshake_packet` (server.rs lines 137–148): generates a fresh
sid when none is supplied; ping values come from the server options.  Returns
the packet and the updated server state. -/
def handshake_packet (srv : ServerState) (upgrades : List String) (sid : Option String) :
    HandshakePacket × ServerState :=
  match sid with
  | some sid =>
    ({ sid := sid, upgrades := upgrades,
       ping_interval := srv.server_option.ping_interval,
       ping_timeout := srv.server_option.ping_timeout }, srv)
  | none =>
    let g := srv.id_generator.generate
    ({ sid := g.1, upgrades := upgrades,
       ping_interval := srv.server_option.ping_interval,
       ping_timeout := srv.server_option.ping_timeout },
     { srv with id_generator := g.2 })

/-- Modelled from the spec: `serde_json::to_string` of a `HandshakePacket`
(the serde derive lives in engineio/src/packet.rs, not among the sources).
Spec §6 gives the JSON shape
`{"sid":"…","upgrades":[…],"pingInterval":<ms>,"pingTimeout":<ms>}`. -/
def handshakeJson (p : HandshakePacket) : String :=
  "\x7b\"sid\":\"" ++ p.sid ++ "\",\"upgrades\":[" ++
    joinComma (p.upgrades.map (fun u => "\"" ++ u ++ "\"")) ++
    "],\"pingInterval\":" ++ toString p.ping_interval ++
    ",\"pingTimeout\":" ++ toString p.ping_timeout ++ "\x7d"

/-- `Display` of `http::StatusCode` 200 is `200 OK` (the only status the
acceptor uses). -/
def statusText (status : Nat) : String :=
  if status = 200 then "200 OK" else toString status

/-- `http_response` (accept.rs lines 180–206): the status line from
`format!("{version:?} {status}")` (`Debug` of `http::Version::HTTP_11` prints
`HTTP/1.1`), then the headers as inserted — the `http` crate stores header
names lowercased — then a blank line and the body.  `Content-Length` is the
body's byte length (`String::len`). -/
def http_response (status : Nat) (body : String) : String :=
  "HTTP/1.1 " ++ statusText status ++ "\r\n" ++
  "content-type: text/plain; charset=UTF-8\r\n" ++
  "connection: Close\r\n" ++
  "content-length: " ++ toString body.utf8ByteSize ++ "\r\n" ++
  "\r\n" ++ body

/-- `PollingAcceptor::accept` (accept.rs lines 39–58): the responses written
to the stream for each classification of the consumed request.  `PollingOpen`
answers `200` with body `"0"` (the Open digit, `PacketId::Open as u8`)
followed by the handshake JSON with upgrades `["websocket"]` and a fresh sid;
`PollingGet` answers `200` with the `Upgrade` digit; every other outcome —
including `PollingPost` and an unclassifiable request — falls into the
`_ => Ok(())` arm and writes nothing. -/
def polling_accept (srv : ServerState) (request : Option RequestType) :
    List String × ServerState :=
  match request with
  | some RequestType.PollingOpen =>
    let hs := handshake_packet srv ["websocket"] none
    let body := toString (EnginePacketId.toU8 EnginePacketId.Open) ++ handshakeJson hs.1
    ([http_response 200 body], hs.2)
  | some (RequestType.PollingGet _) =>
    ([http_response 200 (toString (EnginePacketId.toU8 EnginePacketId.Upgrade))], srv)
  | _ => ([], srv)

/-- The handshake of `WebsocketAcceptor`'s direct-connect path (accept.rs
`handshake`, lines 84–98): a fresh sid and `upgrades = []`. -/
def ws_handshake (srv : ServerState) : HandshakePacket × ServerState :=
  let g := srv.id_generator.generate
  handshake_packet { srv with id_generator := g.2 } [] (some g.1)

/-- The handshake constructed in `Server::store_stream` (server.rs line 99):
`handshake_packet(vec!["webscocket".to_owned()], Some(sid))` — the upgrade
name exactly as the source spells it. -/
def store_stream_handshake (srv : ServerState) (sid : String) : HandshakePacket :=
  (handshake_packet srv ["webscocket"] (some sid)).1

/-- The handshake constructed for `PollingOpen` (accept.rs line 47). -/
def polling_open_handshake (srv : ServerState) : HandshakePacket :=
  (handshake_packet srv ["websocket"] none).1

/-- A concrete server state for closed evaluations. -/
def srv0 : ServerState :=
  { id_generator := { seq := 0 }, server_option := ServerOption.default }

/-- **C6.** A `PollingOpen` request is answered with HTTP 200, the
`Content-Type: text/plain; charset=UTF-8` and `Connection: Close` header
fields (the `http` crate emits the names lowercased; HTTP header names are
case-insensitive), and a body `"0"` followed by the handshake JSON whose
upgrades are `["websocket"]` and whose ping values come from the server
options. -/
theorem c6_polling_open_response (srv : ServerState) :
    (polling_accept srv (some RequestType.PollingOpen)).1 =
      ["HTTP/1.1 200 OK\r\n" ++
        "content-type: text/plain; charset=UTF-8\r\n" ++
        "connection: Close\r\n" ++
        "content-length: " ++
          toString ("0" ++ handshakeJson (polling_open_handshake srv)).utf8ByteSize ++
        "\r\n\r\n" ++ ("0" ++ handshakeJson (polling_open_handshake srv))]
    ∧ (polling_open_handshake srv).upgrades = ["websocket"]
    ∧ (polling_open_handshake srv).ping_interval = srv.server_option.ping_interval
    ∧ (polling_open_handshake srv).ping_timeout = srv.server_option.ping_timeout := by
  refine ⟨?_, rfl, rfl, rfl⟩
  simp [polling_accept, polling_open_handshake, http_response, statusText,
    show toString (EnginePacketId.toU8 EnginePacketId.Open) = "0" from rfl,
    String.append_assoc]

/-- **C7 (evaluated at the failing path).** The `store_stream` handshake —
the path registering every WebSocket transport — advertises the misspelled
transport name `"webscocket"`, so not every advertised upgrade equals
`"websocket"`; the other two construction paths do satisfy the claim. -/
theorem c7_webscocket_typo :
    (store_stream_handshake srv0 "MA==").upgrades = ["webscocket"]
    ∧ ¬ (∀ u ∈ (store_stream_handshake srv0 "MA==").upgrades, u = "websocket")
    ∧ (polling_open_handshake srv0).upgrades = ["websocket"]
    ∧ (ws_handshake srv0).1.upgrades = [] := by
  refine ⟨rfl, ?_, rfl, rfl⟩
  intro h
  have hmem : "webscocket" ∈ (store_stream_handshake srv0 "MA==").upgrades := by
    rw [show (store_stream_handshake srv0 "MA==").upgrades = ["webscocket"] from rfl]
    simp
  exact absurd (h "webscocket" hmem) (by decide)

/-- **C8 (counterexample).** For a `PollingPost` request the acceptor writes
nothing at all — in particular no HTTP 200 status line. -/
theorem c8_counterexample :
    (polling_accept srv0 (some (RequestType.PollingPost [115, 105, 100]))).1 = []
    ∧ ¬ ∃ r ∈ (polling_accept srv0 (some (RequestType.PollingPost [115, 105, 100]))).1,
        r.startsWith "HTTP/1.1 200" = true := by
  refine ⟨rfl, ?_⟩
  rintro ⟨r, hr, -⟩
  rw [show (polling_accept srv0 (some (RequestType.PollingPost [115, 105, 100]))).1 = []
    from rfl] at hr
  exact absurd hr (List.not_mem_nil r)

/-- **C8 (amended).** A request classified `PollingPost` is consumed and
answered with no response whatsoever (the polling POST data path is a stub). -/
theorem c8_polling_post_no_response :
    ∀ (srv : ServerState) (sid : List Nat),
      polling_accept srv (some (RequestType.PollingPost sid)) = ([], srv) := by
  intro srv sid
  rfl
